import Mathlib

/-!
Verification of the NAJU patient data store (src/naju/src-tauri/src/main.rs).

The development shallowly embeds the Rust source into Lean:

* strings are Lean `String`s, manipulated through structural helpers over
  `String.data` so that concrete computations reduce in the kernel;
* the SQLite database is a value: the `patients` table is a list of typed
  rows after migration, and an untyped column-set/row model for the
  schema-migration routine itself;
* the filesystem is the list of file paths that exist;
* clocks, fresh identifiers and the platform directory providers are
  parameters of the embedded operations;
* fallible Rust functions returning `Result<T, String>` become
  `Except String T`.
-/

/-! ## Structural string helpers (kernel-reducible replacements) -/

/-- Rust `str::trim`: drop whitespace from both ends.  Implemented
structurally over the character list so it reduces in the kernel. -/
def strTrim (s : String) : String :=
  ⟨((s.data.dropWhile Char.isWhitespace).reverse.dropWhile Char.isWhitespace).reverse⟩

/-- SQLite `TRIM(x)`: drop space characters (only U+0020) from both ends. -/
def sqlTrimList (l : List Char) : List Char :=
  ((l.dropWhile (· = ' ')).reverse.dropWhile (· = ' ')).reverse

/-- Replace every occurrence of a character by another (Rust
`str::replace` with single-character pattern). -/
def replaceChar (a b : Char) (l : List Char) : List Char :=
  l.map fun c => if c = a then b else c

/-- Byte order comparison of two strings as SQLite BINARY collation does
(memcmp over UTF-8, which coincides with code-point order). -/
def strLeB : List Char → List Char → Bool
  | [], _ => true
  | _ :: _, [] => false
  | a :: as, b :: bs =>
    if a.toNat < b.toNat then true
    else if b.toNat < a.toNat then false
    else strLeB as bs

/-- ASCII lower-casing, as SQLite applies to `LIKE` operands. -/
def asciiLower (c : Char) : Char :=
  if 'A' ≤ c ∧ c ≤ 'Z' then Char.ofNat (c.toNat + 32) else c

/-! ## Relative Path Codec (`rel_from_base` / `abs_from_base`)

Rust `Path` values compare and strip prefixes by components, so a path is
embedded as its list of components (each a character list).  The two
separator conventions differ in which character `to_string_lossy` prints
between components and which characters `push` accepts as separators. -/

/-- Path components: a filesystem path as Rust `Path::components` yields it. -/
abbrev FsPath := List (List Char)

/-- The two path separator conventions of the claim. -/
inductive SepStyle
  | unix
  | windows
deriving DecidableEq

/-- Separator character printed by `to_string_lossy` between components. -/
def sepChar : SepStyle → Char
  | .unix => '/'
  | .windows => '\\'

/-- Characters accepted as separators when a relative string is pushed
onto a `PathBuf` (Windows accepts both, Unix only the slash). -/
def isSep (sty : SepStyle) (c : Char) : Bool :=
  match sty with
  | .unix => c = '/'
  | .windows => c = '/' || c = '\\'

/-- Join components with a separator character (`Path::to_string_lossy`). -/
def joinSep (sep : Char) : List (List Char) → List Char
  | [] => []
  | [c] => c
  | c :: cs => c ++ sep :: joinSep sep cs

/-- Split a character list at separator characters (component parsing done
by `PathBuf::push`); empty pieces between consecutive separators are kept
here and filtered by the caller, as `Components` skips them. -/
def splitRaw (issep : Char → Bool) : List Char → List (List Char)
  | [] => [[]]
  | c :: rest =>
    let r := splitRaw issep rest
    if issep c then [] :: r
    else
      match r with
      | [] => [[c]]
      | h :: t => (c :: h) :: t

/-- Embedded `rel_from_base` (main.rs lines 192-198): strip the base
prefix componentwise (`Path::strip_prefix`), print with the convention
separator (`to_string_lossy`) and normalize backslashes to slashes
(`replace`).  Fails when the path is not under the base. -/
def rel_from_base (sty : SepStyle) (base p : FsPath) : Except String (List Char) :=
  if base.isPrefixOf p then
    .ok (replaceChar '\\' '/' (joinSep (sepChar sty) (p.drop base.length)))
  else
    .error "No se pudo calcular ruta relativa"

/-- Embedded `abs_from_base` (main.rs lines 200-204): `PathBuf::push` of a
relative string onto the base parses the string into components (skipping
empty ones) and appends them.  Total: never fails for any relative string. -/
def abs_from_base (sty : SepStyle) (base : FsPath) (rel : List Char) : FsPath :=
  base ++ (splitRaw (isSep sty) rel).filter (fun c => c ≠ [])

/-! ## SQL values and the schema-migration model (`ensure_schema`)

The migration routine manipulates the live column set, so for it the
`patients` table is modelled untyped: a column list plus rows assigning an
SQL value to every column.  A row is a total assignment to all sixteen
column names that can ever occur; the value of a column that is not in
the column list of the table is junk the routine never reads. -/

/-- An SQL value as this schema uses them: `NULL` or `TEXT`. -/
inductive SqlVal
  | null
  | text (s : String)
deriving DecidableEq

/-- Column names that can occur in the `patients` table. -/
inductive Col
  | id | name | sex | emergency_contact | created_at | updated_at
  | doc_type | doc_number | insurer | birth_date | phone | email
  | address | notes | photo_path | full_name
deriving DecidableEq

/-- Value of a column in an untyped row. -/
structure MRow where
  id : SqlVal
  name : SqlVal
  sex : SqlVal
  emergency_contact : SqlVal
  created_at : SqlVal
  updated_at : SqlVal
  doc_type : SqlVal
  doc_number : SqlVal
  insurer : SqlVal
  birth_date : SqlVal
  phone : SqlVal
  email : SqlVal
  address : SqlVal
  notes : SqlVal
  photo_path : SqlVal
  full_name : SqlVal
deriving DecidableEq

def MRow.get (r : MRow) : Col → SqlVal
  | .id => r.id
  | .name => r.name
  | .sex => r.sex
  | .emergency_contact => r.emergency_contact
  | .created_at => r.created_at
  | .updated_at => r.updated_at
  | .doc_type => r.doc_type
  | .doc_number => r.doc_number
  | .insurer => r.insurer
  | .birth_date => r.birth_date
  | .phone => r.phone
  | .email => r.email
  | .address => r.address
  | .notes => r.notes
  | .photo_path => r.photo_path
  | .full_name => r.full_name

def MRow.set (r : MRow) (c : Col) (v : SqlVal) : MRow :=
  match c with
  | .id => { r with id := v }
  | .name => { r with name := v }
  | .sex => { r with sex := v }
  | .emergency_contact => { r with emergency_contact := v }
  | .created_at => { r with created_at := v }
  | .updated_at => { r with updated_at := v }
  | .doc_type => { r with doc_type := v }
  | .doc_number => { r with doc_number := v }
  | .insurer => { r with insurer := v }
  | .birth_date => { r with birth_date := v }
  | .phone => { r with phone := v }
  | .email => { r with email := v }
  | .address => { r with address := v }
  | .notes => { r with notes := v }
  | .photo_path => { r with photo_path := v }
  | .full_name => { r with full_name := v }

/-- The `patients` table as the migration sees it: live column list plus
rows. -/
structure MTable where
  cols : List Col
  rows : List MRow
deriving DecidableEq

/-- Database state for the migration model: the `patients` table if it
exists, the `files` table contents if it exists, and whether the
`idx_files_patient` index exists. -/
structure MDb where
  patients : Option MTable
  files : Option (List (List SqlVal))
  filesIdx : Bool
deriving DecidableEq

/-- SQLite `NULLIF(v, s)`. -/
def sqlNullif (v : SqlVal) (s : String) : SqlVal :=
  match v with
  | .null => .null
  | .text t => if t = s then .null else .text t

/-- SQLite `COALESCE(a, b)`. -/
def sqlCoalesce (a b : SqlVal) : SqlVal :=
  match a with
  | .null => b
  | .text t => .text t

/-- The condition that v IS NULL or TRIM(v) is the empty string. -/
def sqlBlank (v : SqlVal) : Bool :=
  match v with
  | .null => true
  | .text t => sqlTrimList t.data = []

/-- Embedded `add_column_if_missing` (main.rs lines 90-97): probe the live
column set and append the column with its DDL default when absent. -/
def add_column_if_missing (t : MTable) (c : Col) (dflt : SqlVal) : MTable :=
  if c ∈ t.cols then t
  else { cols := t.cols ++ [c], rows := t.rows.map (fun r => r.set c dflt) }

/-- Columns of the base `CREATE TABLE IF NOT EXISTS patients` statement
(main.rs lines 101-113). -/
def baseCols : List Col :=
  [.id, .name, .sex, .emergency_contact, .created_at, .updated_at]

/-- The twelve `add_column_if_missing` calls of `ensure_schema`
(main.rs lines 116-127), in source order, paired with the default value
their DDL gives to existing rows. -/
def requiredCols : List (Col × SqlVal) :=
  [ (.name, .text ""), (.doc_type, .null), (.doc_number, .null),
    (.insurer, .null), (.birth_date, .null), (.phone, .null),
    (.email, .null), (.address, .null), (.notes, .null),
    (.photo_path, .null), (.created_at, .text ""), (.updated_at, .text "") ]

/-- One row of the `full_name` → `name` backfill (main.rs lines 131-138):
set name to COALESCE of NULLIF(name, empty) and full_name, on rows whose
name is NULL or blank after TRIM. -/
def backfillName (r : MRow) : MRow :=
  if sqlBlank (r.get .name) then
    r.set .name (sqlCoalesce (sqlNullif (r.get .name) "") (r.get .full_name))
  else r

/-- One row of the timestamp defaulting (main.rs lines 141-148): set both
timestamps to COALESCE of NULLIF(column, empty) and the current SQLite
datetime, on rows where either timestamp is NULL or blank after TRIM;
`now` stands for the value of the datetime call. -/
def fillTimestamps (now : String) (r : MRow) : MRow :=
  if sqlBlank (r.get .created_at) || sqlBlank (r.get .updated_at) then
    (r.set .created_at (sqlCoalesce (sqlNullif (r.get .created_at) "") (.text now))).set
      .updated_at (sqlCoalesce (sqlNullif (r.get .updated_at) "") (.text now))
  else r

/-- Step 2 of `ensure_schema` (main.rs lines 116-127): the twelve
`add_column_if_missing` calls, in source order. -/
def migrate_columns (t : MTable) : MTable :=
  requiredCols.foldl (fun t cd => add_column_if_missing t cd.1 cd.2) t

/-- Step 3 of `ensure_schema` (main.rs lines 130-138): the `full_name` →
`name` backfill, guarded by both columns existing. -/
def migrate_backfill (t : MTable) : MTable :=
  if Col.full_name ∈ t.cols ∧ Col.name ∈ t.cols then
    { t with rows := t.rows.map backfillName }
  else t

/-- Step 4 of `ensure_schema` (main.rs lines 141-148): default blank
timestamps to the current datetime. -/
def migrate_fill (now : String) (t : MTable) : MTable :=
  { t with rows := t.rows.map (fillTimestamps now) }

/-- Embedded `ensure_schema` (main.rs lines 99-170): create the base
`patients` table if absent, add the missing columns, backfill `name` from
a legacy `full_name` column when both exist, default blank timestamps to
`now`, create the `files` table if absent and its index. -/
def ensure_schema (now : String) (db : MDb) : MDb :=
  { patients := some (migrate_fill now (migrate_backfill (migrate_columns
      (db.patients.getD { cols := baseCols, rows := [] })))),
    files := some (db.files.getD []), filesIdx := true }

/-! ## The repository-level database model

After `ensure_schema` the `patients` table has the fifteen standard
columns, so the CRUD commands are embedded over typed rows.  `TEXT NOT
NULL` columns are `String`, nullable ones `Option String`. -/

/-- A stored `patients` row. -/
structure PRow where
  id : String
  name : String
  doc_type : Option String
  doc_number : Option String
  insurer : Option String
  birth_date : Option String
  sex : Option String
  phone : Option String
  email : Option String
  address : Option String
  emergency_contact : Option String
  notes : Option String
  photo_path : Option String
  created_at : String
  updated_at : String
deriving DecidableEq

/-- A stored `files` row. -/
structure FRow where
  id : Int
  patient_id : String
  kind : String
  filename : String
  stored_relpath : String
  created_at : String
  meta_json : Option String
deriving DecidableEq

/-- The database visible to the commands: the two tables plus the next
`AUTOINCREMENT` value for `files.id`. -/
structure DB where
  patients : List PRow
  files : List FRow
  nextFileId : Int
deriving DecidableEq

/-- The `Patient` struct returned to the frontend (main.rs lines 206-223);
`photo_path` is the resolved absolute path. -/
structure Patient where
  id : String
  name : String
  doc_type : Option String
  doc_number : Option String
  insurer : Option String
  birth_date : Option String
  sex : Option String
  phone : Option String
  email : Option String
  address : Option String
  emergency_contact : Option String
  notes : Option String
  photo_path : Option String
  created_at : String
  updated_at : String
deriving DecidableEq

/-- The `PatientInput` struct (main.rs lines 225-238). -/
structure PatientInput where
  name : String
  doc_type : Option String
  doc_number : Option String
  insurer : Option String
  birth_date : Option String
  sex : Option String
  phone : Option String
  email : Option String
  address : Option String
  emergency_contact : Option String
  notes : Option String
deriving DecidableEq

/-- The `PatientFile` struct returned to the frontend (main.rs 240-249). -/
structure PatientFile where
  id : Int
  patient_id : String
  kind : String
  filename : String
  created_at : String
  path : String
  meta_json : Option String
deriving DecidableEq

/-- Rendering of `PathBuf::push` of a relative string at string level
(Unix rendering, as `to_string_lossy` prints it). -/
def pathPush (base rel : String) : String :=
  if rel = "" then base else base ++ "/" ++ rel

/-- Value a nullable column contributes to a result row. -/
def optVal : Option String → SqlVal
  | none => .null
  | some s => .text s

/-- `rusqlite::Row::get(i)` for a value read into `String`: out-of-range
indices give the invalid-column-index error, `NULL` the type error. -/
def rowGetStr (row : List SqlVal) (i : Nat) : Except String String :=
  match row.get? i with
  | none => .error "Invalid column index"
  | some .null => .error "Invalid column type"
  | some (.text s) => .ok s

/-- View of an SQL value as `rusqlite` converts it into `Option<String>`:
`NULL` becomes `none`, text becomes `some`. -/
def SqlVal.asOpt : SqlVal → Option String
  | .null => none
  | .text s => some s

/-- `rusqlite::Row::get(i)` for a value read into `Option<String>`. -/
def rowGetOpt (row : List SqlVal) (i : Nat) : Except String (Option String) :=
  match row.get? i with
  | none => .error "Invalid column index"
  | some v => .ok v.asOpt

/-- Embedded `row_to_patient` (main.rs lines 251-276): reads column
indices 0-14 from the result row, resolving the stored relative photo
path to an absolute one through the base directory. -/
def row_to_patient (base : String) (row : List SqlVal) : Except String Patient := do
  let photo_rel ← rowGetOpt row 12
  let photo_abs := photo_rel.map (fun rel => pathPush base rel)
  let i ← rowGetStr row 0
  let n ← rowGetStr row 1
  let dt ← rowGetOpt row 2
  let dn ← rowGetOpt row 3
  let ins ← rowGetOpt row 4
  let bd ← rowGetOpt row 5
  let sx ← rowGetOpt row 6
  let ph ← rowGetOpt row 7
  let em ← rowGetOpt row 8
  let ad ← rowGetOpt row 9
  let ec ← rowGetOpt row 10
  let nt ← rowGetOpt row 11
  let ca ← rowGetStr row 13
  let ua ← rowGetStr row 14
  pure { id := i, name := n, doc_type := dt, doc_number := dn, insurer := ins,
         birth_date := bd, sex := sx, phone := ph, email := em, address := ad,
         emergency_contact := ec, notes := nt, photo_path := photo_abs,
         created_at := ca, updated_at := ua }

/-- The fifteen-column SELECT used by `list_patients` (main.rs lines
289 and 310): projection of a stored row in that column order. -/
def select15 (r : PRow) : List SqlVal :=
  [ .text r.id, .text r.name, optVal r.doc_type, optVal r.doc_number,
    optVal r.insurer, optVal r.birth_date, optVal r.sex, optVal r.phone,
    optVal r.email, optVal r.address, optVal r.emergency_contact,
    optVal r.notes, optVal r.photo_path, .text r.created_at,
    .text r.updated_at ]

/-- The thirteen-column SELECT used by `create_patient`, `update_patient`
and `set_patient_photo` (main.rs lines 372, 417 and 485): it omits `sex`
and `emergency_contact`. -/
def select13 (r : PRow) : List SqlVal :=
  [ .text r.id, .text r.name, optVal r.doc_type, optVal r.doc_number,
    optVal r.insurer, optVal r.birth_date, optVal r.phone, optVal r.email,
    optVal r.address, optVal r.notes, optVal r.photo_path,
    .text r.created_at, .text r.updated_at ]

/-- Re-reading one row by id through the thirteen-column SELECT and
`row_to_patient`, as the three mutating commands do before returning. -/
def queryPatient13 (base : String) (db : DB) (pid : String) : Except String Patient :=
  match db.patients.find? (fun r => r.id = pid) with
  | none => .error "Query returned no rows"
  | some r => row_to_patient base (select13 r)

/-! ## `LIKE` and the listing command -/

/-- Try a matcher on every suffix of the subject (the backtracking that a
bare `%` wildcard performs). -/
def likeSuffix (f : List Char → Bool) : List Char → Bool
  | [] => f []
  | c :: s2 => f (c :: s2) || likeSuffix f s2

/-- SQLite `LIKE` pattern matching: case-insensitive for ASCII letters,
with wildcards bare `%` (any sequence) and `_` (any character).
Structural recursion on the pattern so concrete matches reduce in the
kernel. -/
def likeMatch : List Char → List Char → Bool
  | [], s => s.isEmpty
  | '%' :: ps, s => likeSuffix (likeMatch ps) s
  | '_' :: ps, s =>
    (match s with
     | [] => false
     | _ :: s2 => likeMatch ps s2)
  | p :: ps, s =>
    (match s with
     | [] => false
     | c :: s2 => asciiLower p = asciiLower c && likeMatch ps s2)

/-- SQLite `col LIKE pat` for a nullable column: `NULL` never matches. -/
def likeOpt (pat : List Char) : Option String → Bool
  | none => false
  | some s => likeMatch pat s.data

/-- The WHERE clause of the filtered listing (main.rs line 312), with the
pattern already wrapped as `%query%` (main.rs line 306). -/
def matchesFilter (q : String) (r : PRow) : Bool :=
  let pat := '%' :: q.data ++ ['%']
  likeMatch pat r.name.data || likeOpt pat r.doc_number ||
    likeOpt pat r.insurer || likeOpt pat r.emergency_contact

/-- `ORDER BY updated_at DESC`: descending binary-collation comparison on
the text timestamps; ties are in an unspecified order, modelled by a
stable insertion sort. -/
def orderByUpdatedDesc (rows : List PRow) : List PRow :=
  List.insertionSort (fun a b => strLeB b.updated_at.data a.updated_at.data = true) rows

/-- Embedded `list_patients` (main.rs lines 278-327): trim the query;
empty query selects every row, otherwise the four-column LIKE filter;
order by `updated_at` descending; convert each row with
`row_to_patient` over the fifteen-column SELECT. -/
def list_patients (base : String) (query : String) (db : DB) : Except String (List Patient) :=
  let q := strTrim query
  let rows :=
    if q = "" then orderByUpdatedDesc db.patients
    else orderByUpdatedDesc (db.patients.filter (matchesFilter q))
  rows.mapM (fun r => row_to_patient base (select15 r))

/-! ## The mutating commands -/

/-- Embedded `create_patient` (main.rs lines 329-383): validate the
trimmed name, insert the row with a fresh id, `photo_path` NULL and both
timestamps equal to `now`, create the folder structure (directories are
not part of the file model), then re-read the row through the
thirteen-column SELECT.  Returns the command result together with the
database it leaves behind. -/
def create_patient (base now freshId : String) (input : PatientInput) (db : DB) :
    Except String Patient × DB :=
  let name := strTrim input.name
  if name = "" then (.error "Nombre requerido", db)
  else
    let row : PRow :=
      { id := freshId, name := name, doc_type := input.doc_type,
        doc_number := input.doc_number, insurer := input.insurer,
        birth_date := input.birth_date, sex := input.sex,
        phone := input.phone, email := input.email, address := input.address,
        emergency_contact := input.emergency_contact, notes := input.notes,
        photo_path := none, created_at := now, updated_at := now }
    let db2 : DB := { db with patients := db.patients ++ [row] }
    (queryPatient13 base db2 freshId, db2)

/-- Embedded `update_patient` (main.rs lines 385-428): overwrite every
mutable column of the row with the given id (the trimmed name included,
with no validation) and refresh `updated_at`, then re-read the row
through the thirteen-column SELECT. -/
def update_patient (base now : String) (patientId : String) (input : PatientInput) (db : DB) :
    Except String Patient × DB :=
  let db2 : DB :=
    { db with
      patients := db.patients.map (fun r =>
        if r.id = patientId then
          { r with name := strTrim input.name, doc_type := input.doc_type,
                   doc_number := input.doc_number, insurer := input.insurer,
                   birth_date := input.birth_date, sex := input.sex,
                   phone := input.phone, email := input.email,
                   address := input.address,
                   emergency_contact := input.emergency_contact,
                   notes := input.notes, updated_at := now }
        else r) }
  (queryPatient13 base db2 patientId, db2)

/-- Embedded `delete_patient` (main.rs lines 430-438): DELETE the patient
row; with `foreign_keys` ON, the `ON DELETE CASCADE` clause of `files`
(main.rs line 161) removes the file rows whose `patient_id` matches a
deleted patient row.  No filesystem operation is performed, so the file
list is returned unchanged. -/
def delete_patient (patientId : String) (db : DB) (fs : List String) :
    Except String Unit × DB × List String :=
  let deleted := db.patients.filter (fun r => r.id = patientId)
  let db2 : DB :=
    { db with
      patients := db.patients.filter (fun r => ¬ r.id = patientId),
      files := db.files.filter (fun f => ¬ deleted.any (fun p => p.id = f.patient_id)) }
  (.ok (), db2, fs)

/-! ## Filesystem-copying commands -/

/-- Rust `Path::file_name` rendered at string level: the last nonempty
slash-separated segment, with the `unwrap_or` fallbacks the source
applies ("archivo" for imports). -/
def fileNameOf (p : String) (fallback : String) : String :=
  match ((splitRaw (fun c => c = '/') p.data).filter (fun c => c ≠ [])).getLast? with
  | some seg => ⟨seg⟩
  | none => fallback

/-- Rust `Path::extension` rendered at string level: the part of the file
name after its last dot, provided the name has a dot that is neither its
first nor its last character. -/
def extOf (p : String) : String :=
  let fname := (fileNameOf p "").data
  let afterDot := (fname.reverse.takeWhile (fun c => c ≠ '.')).reverse
  if afterDot.length < fname.length ∧ afterDot ≠ [] ∧
      fname.take (fname.length - afterDot.length - 1) ≠ [] then
    ⟨afterDot⟩
  else "jpg"

/-- Embedded `sanitize_filename` (main.rs lines 15-22): keep ASCII
alphanumerics and a fixed set of punctuation, replace everything else by
an underscore, then trim and turn spaces into underscores. -/
def sanitize_filename (name : String) : String :=
  let mapped := name.data.map (fun c =>
    if c.isAlphanum ∧ c.toNat < 128 ∨
        (c = '.' ∨ c = '_' ∨ c = '-' ∨ c = ' ' ∨ c = '(' ∨ c = ')' ∨
         c = '[' ∨ c = ']') then c
    else '_')
  ⟨replaceChar ' ' '_' (strTrim ⟨mapped⟩).data⟩

/-- Embedded `set_patient_photo` (main.rs lines 440-496): fail if the
source file does not exist; copy it to
`<base>/patients/<id>/profile/profile_<ts>.<ext>` (the copy can fail,
which aborts before any row is touched); update `photo_path` and
`updated_at`; best-effort insert of a `photo` file row; finally re-read
the row through the thirteen-column SELECT.  `ts` stands for the
formatted local time and `copyOk` for whether `fs::copy` succeeds. -/
def set_patient_photo (base ts now : String) (copyOk : Bool)
    (patientId sourcePath : String) (db : DB) (fs : List String) :
    Except String Patient × DB × List String :=
  if sourcePath ∉ fs then
    (.error "El archivo de foto no existe", db, fs)
  else
    let filename := "profile_" ++ ts ++ "." ++ extOf sourcePath
    let dst := base ++ "/patients/" ++ patientId ++ "/profile/" ++ filename
    if ¬ copyOk then
      (.error "No se pudo copiar foto", db, fs)
    else
      let fs2 := dst :: fs
      let rel := "patients/" ++ patientId ++ "/profile/" ++ filename
      let db2 : DB :=
        { db with
          patients := db.patients.map (fun r =>
            if r.id = patientId then
              { r with photo_path := some rel, updated_at := now }
            else r) }
      let frow : FRow :=
        { id := db2.nextFileId, patient_id := patientId, kind := "photo",
          filename := filename, stored_relpath := rel, created_at := now,
          meta_json := none }
      let db3 : DB :=
        { db2 with files := db2.files ++ [frow], nextFileId := db2.nextFileId + 1 }
      (queryPatient13 base db3 patientId, db3, fs2)

/-- Destination path of an import copy (main.rs lines 513-517): the
patient files folder plus the timestamped sanitized name. -/
def importDst (base ts patientId srcStr : String) : String :=
  base ++ "/patients/" ++ patientId ++ "/files/" ++
    (ts ++ "_" ++ sanitize_filename (fileNameOf srcStr "archivo"))

/-- The `files` row inserted for one imported source (main.rs 524-531). -/
def mkImportRow (ts now patientId : String) (fid : Int) (srcStr : String) : FRow :=
  { id := fid, patient_id := patientId, kind := "attachment",
    filename := sanitize_filename (fileNameOf srcStr "archivo"),
    stored_relpath := "patients/" ++ patientId ++ "/files/" ++
      (ts ++ "_" ++ sanitize_filename (fileNameOf srcStr "archivo")),
    created_at := now, meta_json := none }

/-- The `PatientFile` record returned for one imported source
(main.rs 535-543). -/
def mkImportFile (base ts now patientId : String) (fid : Int) (srcStr : String) :
    PatientFile :=
  { id := fid, patient_id := patientId, kind := "attachment",
    filename := sanitize_filename (fileNameOf srcStr "archivo"),
    created_at := now, path := importDst base ts patientId srcStr,
    meta_json := none }

/-- One iteration of the `import_files` loop (main.rs lines 505-544): a
source that does not exist is skipped silently; an existing one is copied
to the patient files folder under a timestamped sanitized name (the copy
of an existing file succeeds in this model), a `files` row of kind
`attachment` is inserted and the created `PatientFile` appended. -/
def import_step (base ts now patientId : String)
    (acc : List PatientFile × DB × List String) (srcStr : String) :
    List PatientFile × DB × List String :=
  let (created, db0, fs0) := acc
  if srcStr ∉ fs0 then acc
  else
    let db1 : DB :=
      { db0 with files := db0.files ++ [mkImportRow ts now patientId db0.nextFileId srcStr],
                 nextFileId := db0.nextFileId + 1 }
    (created ++ [mkImportFile base ts now patientId db0.nextFileId srcStr],
     db1, importDst base ts patientId srcStr :: fs0)

/-- Embedded `import_files` (main.rs lines 498-547): fold the loop body
over the source list in order and return the created records; `ts` stands
for the formatted local time of the call. -/
def import_files (base ts now : String) (patientId : String)
    (sourcePaths : List String) (db : DB) (fs : List String) :
    Except String (List PatientFile) × DB × List String :=
  let r := sourcePaths.foldl (import_step base ts now patientId) ([], db, fs)
  (.ok r.1, r.2.1, r.2.2)

/-! ## Base directory resolution -/

/-- Embedded `app_base_dir` (main.rs lines 24-47): try
`app_data_dir`, then `data_dir`, then `home_dir`; the first one that is
available has the `NAJU` subfolder pushed and created
(`createOk` tells whether `fs::create_dir_all` succeeds there); a
creation failure is returned as an error without trying later
strategies; if no strategy is available at all, a dedicated error is
returned. -/
def app_base_dir (appDataDir dataDir homeDir : Option String)
    (createOk : String → Bool) : Except String String :=
  match appDataDir with
  | some d =>
    let dir := d ++ "/NAJU"
    if createOk dir then .ok dir else .error "No se pudo crear base dir"
  | none =>
    match dataDir with
    | some d =>
      let dir := d ++ "/NAJU"
      if createOk dir then .ok dir else .error "No se pudo crear base dir fallback"
    | none =>
      match homeDir with
      | some d =>
        let dir := d ++ "/NAJU"
        if createOk dir then .ok dir else .error "No se pudo crear base dir home"
      | none =>
        .error "No se pudo resolver ninguna carpeta de datos"

/-! ## Spec-side predicate for the listing claim

The claim words the filter as a case-sensitive substring test; this
predicate follows those words, to be compared with the LIKE-based filter
the source implements. -/

/-- Case-sensitive substring containment, following the claim text. -/
def containsCS (hay pat : String) : Bool :=
  decide (pat.data <:+: hay.data)

/-- Case-sensitive substring containment for a nullable column. -/
def containsCSOpt (hay : Option String) (pat : String) : Bool :=
  match hay with
  | none => false
  | some s => containsCS s pat

/-- The claim text filter: name, document number, insurer or emergency
contact contains the filter as a case-sensitive substring. -/
def specFilterCS (q : String) (r : PRow) : Bool :=
  containsCS r.name q || containsCSOpt r.doc_number q ||
    containsCSOpt r.insurer q || containsCSOpt r.emergency_contact q

/-! ## Concrete values used by witnesses and counterexamples -/

/-- A `PatientInput` with the given name and every optional field empty. -/
def mkInput (n : String) : PatientInput :=
  { name := n, doc_type := none, doc_number := none, insurer := none,
    birth_date := none, sex := none, phone := none, email := none,
    address := none, emergency_contact := none, notes := none }

/-- A stored patient row named Ana. -/
def anaRow : PRow :=
  { id := "p1", name := "Ana", doc_type := none, doc_number := none,
    insurer := none, birth_date := none, sex := none, phone := none,
    email := none, address := none, emergency_contact := none, notes := none,
    photo_path := none, created_at := "2024-01-01T00:00:00",
    updated_at := "2024-01-01T00:00:00" }

/-- A database holding only Ana. -/
def dbAna : DB := { patients := [anaRow], files := [], nextFileId := 1 }

/-- The empty database. -/
def db0 : DB := { patients := [], files := [], nextFileId := 1 }

/-- A database holding Ana and one attachment row of hers. -/
def dbAnaFile : DB :=
  { patients := [anaRow],
    files := [{ id := 1, patient_id := "p1", kind := "attachment",
                filename := "f.txt", stored_relpath := "patients/p1/files/f.txt",
                created_at := "2024-01-02T00:00:00", meta_json := none }],
    nextFileId := 2 }

/-- The `Patient` record the fifteen-column SELECT produces from a stored
row, with the photo path resolved against the base directory. -/
def patientOfRow (base : String) (r : PRow) : Patient :=
  { id := r.id, name := r.name, doc_type := r.doc_type,
    doc_number := r.doc_number, insurer := r.insurer,
    birth_date := r.birth_date, sex := r.sex, phone := r.phone,
    email := r.email, address := r.address,
    emergency_contact := r.emergency_contact, notes := r.notes,
    photo_path := r.photo_path.map (fun rel => pathPush base rel),
    created_at := r.created_at, updated_at := r.updated_at }

/-- A stored row whose insurer is ACME in capitals; no field of it
contains the lowercase string acme. -/
def acmeRow : PRow :=
  { id := "p2", name := "Zoe", doc_type := none, doc_number := none,
    insurer := some "ACME", birth_date := none, sex := none, phone := none,
    email := none, address := none, emergency_contact := none, notes := none,
    photo_path := none, created_at := "2024-02-01T00:00:00",
    updated_at := "2024-02-01T00:00:00" }

/-- A database holding only the ACME-insured patient. -/
def dbAcme : DB := { patients := [acmeRow], files := [], nextFileId := 1 }

/-- A legacy migration-model row: blank name, a `full_name` value, blank
or missing timestamps. -/
def legacyRow : MRow :=
  { id := .text "p1", name := .text "", sex := .null,
    emergency_contact := .null, created_at := .text "", updated_at := .null,
    doc_type := .null, doc_number := .null, insurer := .null,
    birth_date := .null, phone := .null, email := .null, address := .null,
    notes := .null, photo_path := .null, full_name := .text "Luz" }

/-- A legacy database for the migration model: an old `patients` table
with a `full_name` column and no `files` table. -/
def dbLegacy : MDb :=
  { patients := some { cols := [.id, .full_name, .name, .created_at, .updated_at],
                       rows := [legacyRow] },
    files := none, filesIdx := false }

/-! ## Helper lemmas -/

/-- Re-reading any row through the thirteen-column SELECT always fails
with the invalid-column-index error: `row_to_patient` reads index 13. -/
theorem row_to_patient_select13 (base : String) (r : PRow) :
    row_to_patient base (select13 r) = .error "Invalid column index" := rfl

/-- The thirteen-column re-read fails on every database that holds the
requested id. -/
theorem queryPatient13_errors (base : String) (db : DB) (pid : String)
    (h : ∃ r ∈ db.patients, r.id = pid) :
    queryPatient13 base db pid = .error "Invalid column index" := by
  obtain ⟨r0, hr0, hid⟩ := h
  unfold queryPatient13
  rcases hfind : db.patients.find? (fun r => r.id = pid) with _ | r
  · exfalso
    have := List.find?_eq_none.mp hfind r0 hr0
    simp [hid] at this
  · rw [hfind]
    exact row_to_patient_select13 base r

/-- C10: `delete_patient` on an id that matches no patient row returns
unit (not an error) and leaves the database and the filesystem unchanged:
the DELETE statement simply affects zero rows. -/
theorem delete_patient_missing_id_noop (patientId : String) (db : DB) (fs : List String)
    (h : ∀ r ∈ db.patients, r.id ≠ patientId) :
    delete_patient patientId db fs = (.ok (), db, fs) := by
  unfold delete_patient
  have hdel : db.patients.filter (fun r => r.id = patientId) = [] := by
    rw [List.filter_eq_nil_iff]
    intro a ha
    simpa using h a ha
  have hkeep : List.filter (fun r => !decide (r.id = patientId)) db.patients = db.patients := by
    rw [List.filter_eq_self]
    intro a ha
    simpa using h a ha
  simp [hdel, hkeep]

/-- Witness for C10 at a concrete database. -/
theorem delete_patient_missing_id_noop_witness :
    delete_patient "zz" dbAna ["/base/patients/p1/files/f.txt"] =
      (.ok (), dbAna, ["/base/patients/p1/files/f.txt"]) :=
  delete_patient_missing_id_noop "zz" dbAna ["/base/patients/p1/files/f.txt"]
    (by decide)

/-- C7: `delete_patient` removes the patient row, the cascade removes all
of that patient file rows, and no filesystem operation happens: the file
list after the call is exactly the file list before it. -/
theorem delete_patient_cascade_keeps_files (patientId : String) (db : DB) (fs : List String)
    (hp : ∃ r ∈ db.patients, r.id = patientId) :
    (delete_patient patientId db fs).1 = .ok () ∧
    (delete_patient patientId db fs).2.2 = fs ∧
    (∀ r ∈ (delete_patient patientId db fs).2.1.patients, r.id ≠ patientId) ∧
    (∀ f ∈ (delete_patient patientId db fs).2.1.files, f.patient_id ≠ patientId) := by
  obtain ⟨r0, hr0, hid⟩ := hp
  refine ⟨rfl, rfl, ?_, ?_⟩
  · intro r hr
    have := (List.mem_filter.mp hr).2
    simpa using this
  · intro f hf hfp
    have hmem := (List.mem_filter.mp hf).2
    have hany : (db.patients.filter (fun r => r.id = patientId)).any
        (fun p => p.id = f.patient_id) = true := by
      refine List.any_eq_true.mpr ⟨r0, List.mem_filter.mpr ⟨hr0, by simpa using hid⟩, ?_⟩
      simp [hid, hfp]
    simp [hany] at hmem

/-- Witness for C7 at a concrete database with one attachment row. -/
theorem delete_patient_cascade_keeps_files_witness :
    (delete_patient "p1" dbAnaFile ["/base/patients/p1/files/f.txt"]).1 = .ok () ∧
    (delete_patient "p1" dbAnaFile ["/base/patients/p1/files/f.txt"]).2.2 =
      ["/base/patients/p1/files/f.txt"] ∧
    (∀ r ∈ (delete_patient "p1" dbAnaFile ["/base/patients/p1/files/f.txt"]).2.1.patients,
      r.id ≠ "p1") ∧
    (∀ f ∈ (delete_patient "p1" dbAnaFile ["/base/patients/p1/files/f.txt"]).2.1.files,
      f.patient_id ≠ "p1") :=
  delete_patient_cascade_keeps_files "p1" dbAnaFile ["/base/patients/p1/files/f.txt"]
    ⟨anaRow, by decide, by decide⟩

/-- C5: `set_patient_photo` fails when the source does not exist, and on
either failure cause (missing source or failed copy) it returns the
database and the filesystem exactly as they were: the row update only
happens after a successful copy. -/
theorem set_patient_photo_failure_frame (base ts now : String) (copyOk : Bool)
    (patientId sourcePath : String) (db : DB) (fs : List String)
    (h : sourcePath ∉ fs ∨ copyOk = false) :
    ∃ e, set_patient_photo base ts now copyOk patientId sourcePath db fs =
      (.error e, db, fs) := by
  unfold set_patient_photo
  by_cases hm : sourcePath ∈ fs
  · have hcopy : copyOk = false := by
      rcases h with h | h
      · exact absurd hm h
      · exact h
    exact ⟨"No se pudo copiar foto", by simp [hm, hcopy]⟩
  · exact ⟨"El archivo de foto no existe", by simp [hm]⟩

/-- Witness for C5: a missing source and, separately, a failing copy. -/
theorem set_patient_photo_failure_frame_witness :
    (∃ e, set_patient_photo "/base" "TS" "T2" true "p1" "/nope.png" dbAna [] =
      (.error e, dbAna, [])) ∧
    (∃ e, set_patient_photo "/base" "TS" "T2" false "p1" "/pic.png" dbAna ["/pic.png"] =
      (.error e, dbAna, ["/pic.png"])) :=
  ⟨set_patient_photo_failure_frame "/base" "TS" "T2" true "p1" "/nope.png" dbAna []
      (Or.inl (by decide)),
   set_patient_photo_failure_frame "/base" "TS" "T2" false "p1" "/pic.png" dbAna ["/pic.png"]
      (Or.inr rfl)⟩

/-- C9 counterexample: with the first strategy available but its
directory creation failing, `app_base_dir` fails even though the second
strategy is available and usable, refuting that it fails only when every
strategy is unavailable. -/
theorem app_base_dir_fails_with_strategy_available :
    app_base_dir (some "/a") (some "/b") (some "/h")
        (fun d => decide ¬(d = "/a/NAJU")) = .error "No se pudo crear base dir" ∧
    app_base_dir none (some "/b") (some "/h")
        (fun d => decide ¬(d = "/a/NAJU")) = .ok "/b/NAJU" := by
  constructor <;> rfl

/-- C9 amended: the three strategies are tried in strict priority order
and an unavailable one (the platform returns nothing) falls through to
the next; the resolution fails when every strategy is unavailable, and
also when the first available strategy directory cannot be created, in
which case later strategies are not tried. -/
theorem app_base_dir_fallback_order (dd hd : Option String) (createOk : String → Bool) :
    (app_base_dir none none none createOk =
      .error "No se pudo resolver ninguna carpeta de datos") ∧
    (∀ d, createOk (d ++ "/NAJU") = true →
      app_base_dir (some d) dd hd createOk = .ok (d ++ "/NAJU")) ∧
    (∀ d, createOk (d ++ "/NAJU") = false →
      app_base_dir (some d) dd hd createOk = .error "No se pudo crear base dir") ∧
    (∀ d, createOk (d ++ "/NAJU") = true →
      app_base_dir none (some d) hd createOk = .ok (d ++ "/NAJU")) ∧
    (∀ d, createOk (d ++ "/NAJU") = false →
      app_base_dir none (some d) hd createOk = .error "No se pudo crear base dir fallback") ∧
    (∀ d, createOk (d ++ "/NAJU") = true →
      app_base_dir none none (some d) createOk = .ok (d ++ "/NAJU")) ∧
    (∀ d, createOk (d ++ "/NAJU") = false →
      app_base_dir none none (some d) createOk = .error "No se pudo crear base dir home") := by
  refine ⟨rfl, ?_, ?_, ?_, ?_, ?_, ?_⟩ <;> intro d h <;> simp [app_base_dir, h]

/-- Witness for C9 amended at concrete directory providers. -/
theorem app_base_dir_fallback_order_witness :
    app_base_dir (some "/a") none none (fun _ => true) = .ok "/a/NAJU" ∧
    app_base_dir none (some "/b") none (fun _ => true) = .ok "/b/NAJU" :=
  ⟨(app_base_dir_fallback_order none none (fun _ => true)).2.1 "/a" rfl,
   (app_base_dir_fallback_order none none (fun _ => true)).2.2.2.1 "/b" rfl⟩

/-- C2 counterexample: updating Ana with a whitespace-only name stores
the empty string as her name, so an operation other than creation can
leave a patient row with an empty name. -/
theorem update_patient_stores_empty_name :
    anaRow.name ≠ "" ∧
    ((update_patient "/base" "T2" "p1" (mkInput "   ") dbAna).2).patients.map PRow.name
      = [""] := by
  constructor
  · decide
  · decide

/-- C2 amended: `create_patient` rejects an empty or whitespace-only name
with a validation error and inserts no row, but `update_patient` performs
no such validation: it stores the trimmed name unconditionally, so it can
leave the named row with an empty name. -/
theorem create_validates_update_does_not :
    (∀ base now freshId input db, strTrim input.name = "" →
      create_patient base now freshId input db = (.error "Nombre requerido", db)) ∧
    (∀ base now patientId input db r, strTrim input.name = "" →
      r ∈ (update_patient base now patientId input db).2.patients →
      r.id = patientId → r.name = "") := by
  constructor
  · intro base now freshId input db h
    unfold create_patient
    simp [h]
  · intro base now patientId input db r h hr hid
    unfold update_patient at hr
    obtain ⟨r0, hr0, heq⟩ := List.mem_map.mp hr
    by_cases h0 : r0.id = patientId
    · rw [← heq]
      simp [h0, h]
    · rw [← heq] at hid
      simp [h0] at hid

/-- Witness for C2 amended: both parts applied at a concrete input. -/
theorem create_validates_update_does_not_witness :
    create_patient "/base" "T1" "id9" (mkInput " ") dbAna = (.error "Nombre requerido", dbAna) ∧
    ({ anaRow with name := "", updated_at := "T2" } : PRow).name = "" :=
  ⟨create_validates_update_does_not.1 "/base" "T1" "id9" (mkInput " ") dbAna (by decide),
   create_validates_update_does_not.2 "/base" "T2" "p1" (mkInput " ") dbAna
     { anaRow with name := "", updated_at := "T2" } (by decide) (by decide) (by decide)⟩

/-- C1 (documents the code bug): for every input whose name is non-empty
after trimming, `create_patient` does insert the fully populated row with
a fresh id, `photo_path` NULL and equal timestamps, but then returns the
invalid-column-index error instead of the stored record, because the
SELECT it re-reads the row with lists thirteen columns while
`row_to_patient` reads fifteen. -/
theorem create_patient_inserts_then_errors (base now freshId : String)
    (input : PatientInput) (db : DB) (h : strTrim input.name ≠ "") :
    (create_patient base now freshId input db).1 = .error "Invalid column index" ∧
    (create_patient base now freshId input db).2.patients =
      db.patients ++
        [{ id := freshId, name := strTrim input.name, doc_type := input.doc_type,
           doc_number := input.doc_number, insurer := input.insurer,
           birth_date := input.birth_date, sex := input.sex, phone := input.phone,
           email := input.email, address := input.address,
           emergency_contact := input.emergency_contact, notes := input.notes,
           photo_path := none, created_at := now, updated_at := now }] := by
  unfold create_patient
  simp only [h, if_false, ite_false]
  constructor
  · apply queryPatient13_errors
    exact ⟨_, List.mem_append_right _ (List.mem_singleton.mpr rfl), rfl⟩
  · trivial

/-- Witness for C1 at the concrete input Ana over the empty database. -/
theorem create_patient_inserts_then_errors_witness :
    (create_patient "/base" "T1" "id1" (mkInput "Ana") db0).1 =
      .error "Invalid column index" ∧
    (create_patient "/base" "T1" "id1" (mkInput "Ana") db0).2.patients =
      db0.patients ++
        [{ id := "id1", name := strTrim (mkInput "Ana").name,
           doc_type := (mkInput "Ana").doc_type,
           doc_number := (mkInput "Ana").doc_number,
           insurer := (mkInput "Ana").insurer,
           birth_date := (mkInput "Ana").birth_date,
           sex := (mkInput "Ana").sex, phone := (mkInput "Ana").phone,
           email := (mkInput "Ana").email, address := (mkInput "Ana").address,
           emergency_contact := (mkInput "Ana").emergency_contact,
           notes := (mkInput "Ana").notes, photo_path := none,
           created_at := "T1", updated_at := "T1" }] :=
  create_patient_inserts_then_errors "/base" "T1" "id1" (mkInput "Ana") db0 (by decide)

/-- String append distributes over the character data. -/
theorem str_data_append (a b : String) : (a ++ b).data = a.data ++ b.data :=
  String.data_append a b

/-- The destination path of every import copy starts with the managed
area prefix of the base directory. -/
theorem importDst_has_prefix (base ts patientId srcStr : String) :
    (base ++ "/patients/").data <+: (importDst base ts patientId srcStr).data := by
  refine ⟨(patientId ++ ("/files/" ++
    (ts ++ "_" ++ sanitize_filename (fileNameOf srcStr "archivo")))).data, ?_⟩
  simp [importDst, str_data_append, List.append_assoc]

/-- Folding the import loop over sources that never point into the
managed area creates one record per source present in the reference file
list, in order, carrying the sanitized filename. -/
theorem import_foldl_filenames (base ts now patientId : String) (fsRef : List String) :
    ∀ (srcs : List String) (created : List PatientFile) (db0 : DB) (fs0 : List String),
    (∀ s ∈ srcs, (s ∈ fs0 ↔ s ∈ fsRef)) →
    (∀ s ∈ srcs, ¬ ((base ++ "/patients/").data <+: s.data)) →
    (List.foldl (import_step base ts now patientId) (created, db0, fs0) srcs).1.map
        (fun f => f.filename) =
      created.map (fun f => f.filename) ++
        (srcs.filter (fun s => s ∈ fsRef)).map
          (fun s => sanitize_filename (fileNameOf s "archivo")) := by
  intro srcs
  induction srcs with
  | nil => intro created db0 fs0 _ _; simp
  | cons s rest ih =>
    intro created db0 fs0 hmem hpre
    by_cases hs : s ∈ fs0
    · have hsRef : s ∈ fsRef := (hmem s (List.mem_cons_self s rest)).mp hs
      have hstep : import_step base ts now patientId (created, db0, fs0) s =
          (created ++ [mkImportFile base ts now patientId db0.nextFileId s],
           { db0 with
               files := db0.files ++ [mkImportRow ts now patientId db0.nextFileId s],
               nextFileId := db0.nextFileId + 1 },
           importDst base ts patientId s :: fs0) := by
        unfold import_step
        simp [hs]
      rw [List.foldl_cons, hstep]
      rw [ih _ _ _ ?_ ?_]
      · simp [hsRef, mkImportFile, List.append_assoc]
      · intro t ht
        constructor
        · intro htin
          rcases List.mem_cons.mp htin with hteq | htin0
          · exfalso
            apply hpre t (List.mem_cons_of_mem s ht)
            rw [hteq]
            exact importDst_has_prefix base ts patientId s
          · exact (hmem t (List.mem_cons_of_mem s ht)).mp htin0
        · intro htref
          exact List.mem_cons_of_mem _ ((hmem t (List.mem_cons_of_mem s ht)).mpr htref)
      · intro t ht
        exact hpre t (List.mem_cons_of_mem s ht)
    · have hsRef : s ∉ fsRef := fun hr => hs ((hmem s (List.mem_cons_self s rest)).mpr hr)
      have hstep : import_step base ts now patientId (created, db0, fs0) s =
          (created, db0, fs0) := by
        unfold import_step
        simp [hs]
      rw [List.foldl_cons, hstep]
      rw [ih _ _ _ (fun t ht => hmem t (List.mem_cons_of_mem s ht))
            (fun t ht => hpre t (List.mem_cons_of_mem s ht))]
      simp [hsRef]

/-- C6: for every list of sources (none of which points into the managed
patients area), `import_files` returns Ok with exactly one created
attachment record per source existing on disk, in the same relative
order as the input list, skipping missing ones without raising an
error; the record carries the sanitized filename of its source. -/
theorem import_files_one_record_per_existing (base ts now patientId : String)
    (sourcePaths : List String) (db : DB) (fs : List String)
    (hpre : ∀ s ∈ sourcePaths, ¬ ((base ++ "/patients/").data <+: s.data)) :
    ∃ created,
      (import_files base ts now patientId sourcePaths db fs).1 = .ok created ∧
      created.map (fun f => f.filename) =
        (sourcePaths.filter (fun s => s ∈ fs)).map
          (fun s => sanitize_filename (fileNameOf s "archivo")) ∧
      created.length = (sourcePaths.filter (fun s => s ∈ fs)).length := by
  refine ⟨(sourcePaths.foldl (import_step base ts now patientId) ([], db, fs)).1,
    rfl, ?_, ?_⟩
  · have := import_foldl_filenames base ts now patientId fs sourcePaths [] db fs
      (fun s _ => Iff.rfl) hpre
    simpa using this
  · have := import_foldl_filenames base ts now patientId fs sourcePaths [] db fs
      (fun s _ => Iff.rfl) hpre
    have hlen := congrArg List.length this
    simpa using hlen

/-- Witness for C6: three sources of which the middle one is missing. -/
theorem import_files_one_record_per_existing_witness :
    ∃ created,
      (import_files "/base" "TS" "T3" "p1" ["/tmp/a.txt", "/tmp/missing.txt", "/tmp/b.txt"]
          dbAna ["/tmp/a.txt", "/tmp/b.txt"]).1 = .ok created ∧
      created.map (fun f => f.filename) =
        ((["/tmp/a.txt", "/tmp/missing.txt", "/tmp/b.txt"] : List String).filter
            (fun s => s ∈ (["/tmp/a.txt", "/tmp/b.txt"] : List String))).map
          (fun s => sanitize_filename (fileNameOf s "archivo")) ∧
      created.length =
        ((["/tmp/a.txt", "/tmp/missing.txt", "/tmp/b.txt"] : List String).filter
            (fun s => s ∈ (["/tmp/a.txt", "/tmp/b.txt"] : List String))).length :=
  import_files_one_record_per_existing "/base" "TS" "T3" "p1"
    ["/tmp/a.txt", "/tmp/missing.txt", "/tmp/b.txt"] dbAna ["/tmp/a.txt", "/tmp/b.txt"]
    (by decide)

/-- Splitting a separator-free piece yields just that piece. -/
theorem splitRaw_sepfree (issep : Char → Bool) (c : List Char)
    (hc : ∀ ch ∈ c, issep ch = false) : splitRaw issep c = [c] := by
  induction c with
  | nil => rfl
  | cons ch rest ih =>
    have hch : issep ch = false := hc ch (List.mem_cons_self ch rest)
    have hrest := ih (fun x hx => hc x (List.mem_cons_of_mem ch hx))
    simp [splitRaw, hch, hrest]

/-- Prepending a separator-free piece extends the first split component. -/
theorem splitRaw_append (issep : Char → Bool) (c s : List Char)
    (hc : ∀ ch ∈ c, issep ch = false) (h : List Char) (t : List (List Char))
    (hs : splitRaw issep s = h :: t) :
    splitRaw issep (c ++ s) = (c ++ h) :: t := by
  induction c with
  | nil => simpa using hs
  | cons ch rest ih =>
    have hch : issep ch = false := hc ch (List.mem_cons_self ch rest)
    have hrest := ih (fun x hx => hc x (List.mem_cons_of_mem ch hx))
    simp [splitRaw, hch, hrest]

/-- Splitting the slash-joined components recovers them, when every
component is free of separator characters and the slash is a separator. -/
theorem splitRaw_joinSep (issep : Char → Bool) (hsl : issep '/' = true) :
    ∀ (rest : List (List Char)), rest ≠ [] →
    (∀ comp ∈ rest, ∀ ch ∈ comp, issep ch = false) →
    splitRaw issep (joinSep '/' rest) = rest := by
  intro rest
  induction rest with
  | nil => intro h; exact absurd rfl h
  | cons c cs ih =>
    intro _ hfree
    cases cs with
    | nil =>
      exact splitRaw_sepfree issep c (hfree c (List.mem_cons_self c []))
    | cons c2 cs2 =>
      have hin : splitRaw issep (joinSep '/' (c2 :: cs2)) = c2 :: cs2 :=
        ih (by simp) (fun comp hcomp => hfree comp (List.mem_cons_of_mem c hcomp))
      have hmid : splitRaw issep ('/' :: joinSep '/' (c2 :: cs2)) = [] :: c2 :: cs2 := by
        simp [splitRaw, hsl, hin]
      have := splitRaw_append issep c ('/' :: joinSep '/' (c2 :: cs2))
        (hfree c (List.mem_cons_self c (c2 :: cs2))) [] (c2 :: cs2) hmid
      simpa [joinSep] using this

/-- Normalizing backslashes in the joined path gives the slash-joined
path, for components that contain neither separator character. -/
theorem replaceChar_joinSep (sty : SepStyle) :
    ∀ (rest : List (List Char)),
    (∀ comp ∈ rest, ∀ ch ∈ comp, ch ≠ '/' ∧ ch ≠ '\\') →
    replaceChar '\\' '/' (joinSep (sepChar sty) rest) = joinSep '/' rest := by
  intro rest
  induction rest with
  | nil => intro _; rfl
  | cons c cs ih =>
    intro hfree
    have hc : replaceChar '\\' '/' c = c := by
      unfold replaceChar
      conv_rhs => rw [← List.map_id c]
      apply List.map_congr_left
      intro ch hch
      simp [(hfree c (List.mem_cons_self c cs) ch hch).2]
    cases cs with
    | nil => simpa [joinSep] using hc
    | cons c2 cs2 =>
      have hin := ih (fun comp hcomp => hfree comp (List.mem_cons_of_mem c hcomp))
      have hsep : (if sepChar sty = '\\' then '/' else sepChar sty) = '/' := by
        cases sty <;> simp [sepChar]
      show replaceChar '\\' '/' (c ++ sepChar sty :: joinSep (sepChar sty) (c2 :: cs2)) =
        c ++ '/' :: joinSep '/' (c2 :: cs2)
      unfold replaceChar at hc hin ⊢
      simp only [List.map_append, List.map_cons]
      rw [hc, hin, hsep]

/-- C3: for every path strictly under the base (made of nonempty
components free of both separator characters) the codec round-trips under
either separator convention; a path not under the base makes
`rel_from_base` fail; and `abs_from_base` is total on arbitrary relative
strings. -/
theorem rel_abs_roundtrip (sty : SepStyle) :
    (∀ base p : FsPath,
      (∀ comp ∈ p, comp ≠ [] ∧ ∀ ch ∈ comp, ch ≠ '/' ∧ ch ≠ '\\') →
      base <+: p → p ≠ base →
      ∃ rel, rel_from_base sty base p = .ok rel ∧ abs_from_base sty base rel = p) ∧
    (∀ base p : FsPath, ¬ base <+: p →
      rel_from_base sty base p = .error "No se pudo calcular ruta relativa") ∧
    (∀ (base : FsPath) (rel : List Char), ∃ q, abs_from_base sty base rel = q) := by
  refine ⟨?_, ?_, fun base rel => ⟨_, rfl⟩⟩
  · intro base p hvalid hpre hne
    obtain ⟨t, ht⟩ := hpre
    have htfree : ∀ comp ∈ t, comp ≠ [] ∧ ∀ ch ∈ comp, ch ≠ '/' ∧ ch ≠ '\\' := by
      intro comp hcomp
      exact hvalid comp (ht ▸ List.mem_append_right base hcomp)
    have htne : t ≠ [] := by
      intro h0
      apply hne
      rw [← ht, h0, List.append_nil]
    have hdrop : p.drop base.length = t := by
      rw [← ht]
      exact List.drop_left base t
    have hbool : base.isPrefixOf p = true :=
      List.isPrefixOf_iff_prefix.mpr ⟨t, ht⟩
    have hrel : rel_from_base sty base p = .ok (joinSep '/' t) := by
      unfold rel_from_base
      rw [if_pos hbool, hdrop,
        replaceChar_joinSep sty t (fun comp hcomp => (htfree comp hcomp).2)]
    refine ⟨joinSep '/' t, hrel, ?_⟩
    unfold abs_from_base
    have hsl : isSep sty '/' = true := by
      cases sty <;> simp [isSep]
    have hsepfree : ∀ comp ∈ t, ∀ ch ∈ comp, isSep sty ch = false := by
      intro comp hcomp ch hch
      have h2 := (htfree comp hcomp).2 ch hch
      cases sty <;> simp [isSep, h2.1, h2.2]
    rw [splitRaw_joinSep (isSep sty) hsl t htne hsepfree]
    rw [List.filter_eq_self.mpr (fun comp hcomp => by
      simpa using (htfree comp hcomp).1)]
    exact ht
  · intro base p hnp
    have hbool : ¬ (base.isPrefixOf p = true) := fun h =>
      hnp (List.isPrefixOf_iff_prefix.mp h)
    unfold rel_from_base
    rw [if_neg hbool]

/-- Witness for C3 under the Windows convention at a concrete path two
components below the base. -/
theorem rel_abs_roundtrip_witness :
    (∃ rel, rel_from_base .windows [['b'], ['x']] [['b'], ['x'], ['a'], ['c']] = .ok rel ∧
      abs_from_base .windows [['b'], ['x']] rel = [['b'], ['x'], ['a'], ['c']]) ∧
    rel_from_base .windows [['b'], ['x']] [['q']] =
      .error "No se pudo calcular ruta relativa" :=
  ⟨(rel_abs_roundtrip .windows).1 [['b'], ['x']] [['b'], ['x'], ['a'], ['c']]
      (by decide) ⟨[['a'], ['c']], rfl⟩ (by decide),
   (rel_abs_roundtrip .windows).2.1 [['b'], ['x']] [['q']]
      (by decide)⟩

/-- Converting the NULL-or-text view back after projecting an optional
column is the identity. -/
theorem asOpt_optVal (o : Option String) : (optVal o).asOpt = o := by
  cases o <;> rfl

/-- The fifteen-column SELECT row converts without error into the
corresponding `Patient`. -/
theorem row_to_patient_select15 (base : String) (r : PRow) :
    row_to_patient base (select15 r) = .ok (patientOfRow base r) := by
  simp [row_to_patient, select15, rowGetStr, rowGetOpt, asOpt_optVal, patientOfRow]
  rfl

/-- Mapping the row conversion over any list of stored rows succeeds. -/
theorem mapM_row15 (base : String) : ∀ rows : List PRow,
    rows.mapM (fun r => row_to_patient base (select15 r)) =
      .ok (rows.map (patientOfRow base)) := by
  intro rows
  induction rows with
  | nil => rfl
  | cons r rest ih =>
    rw [List.mapM_cons, row_to_patient_select15, ih]
    rfl

/-- The binary-collation comparison is total. -/
theorem strLeB_total : ∀ x y : List Char, strLeB x y = true ∨ strLeB y x = true := by
  intro x
  induction x with
  | nil => intro y; left; rfl
  | cons a as ih =>
    intro y
    cases y with
    | nil => right; rfl
    | cons b bs =>
      by_cases h1 : a.toNat < b.toNat
      · left; simp [strLeB, h1]
      · by_cases h2 : b.toNat < a.toNat
        · right; simp [strLeB, h2]
        · rcases ih bs with h | h
          · left; simp [strLeB, h1, h2, h]
          · right; simp [strLeB, h1, h2, h]

/-- The binary-collation comparison is transitive. -/
theorem strLeB_trans : ∀ x y z : List Char,
    strLeB x y = true → strLeB y z = true → strLeB x z = true := by
  intro x
  induction x with
  | nil => intro y z _ _; rfl
  | cons a as ih =>
    intro y z hxy hyz
    cases y with
    | nil => simp [strLeB] at hxy
    | cons b bs =>
      cases z with
      | nil => simp [strLeB] at hyz
      | cons c cs =>
        by_cases h1 : a.toNat < b.toNat <;> by_cases h2 : b.toNat < c.toNat
        · have : a.toNat < c.toNat := Nat.lt_trans h1 h2
          simp [strLeB, this]
        · by_cases h3 : c.toNat < b.toNat
          · simp [strLeB, h2, h3] at hyz
          · have : a.toNat < c.toNat := by omega
            simp [strLeB, this]
        · by_cases h4 : b.toNat < a.toNat
          · simp [strLeB, h1, h4] at hxy
          · have : a.toNat < c.toNat := by omega
            simp [strLeB, this]
        · by_cases h4 : b.toNat < a.toNat
          · simp [strLeB, h1, h4] at hxy
          · by_cases h3 : c.toNat < b.toNat
            · simp [strLeB, h2, h3] at hyz
            · have h5 : ¬ a.toNat < c.toNat := by omega
              have h6 : ¬ c.toNat < a.toNat := by omega
              have hxy2 : strLeB as bs = true := by
                simpa [strLeB, h1, h4] using hxy
              have hyz2 : strLeB bs cs = true := by
                simpa [strLeB, h2, h3] using hyz
              simp [strLeB, h5, h6, ih bs cs hxy2 hyz2]

/-- C8 counterexample: with the single stored patient insured by ACME in
capitals, the filter acme in lowercase returns that patient (SQLite LIKE
is ASCII-case-insensitive), although none of the four searched fields
contains acme as a case-sensitive substring. -/
theorem list_patients_case_insensitive :
    list_patients "/b" "acme" dbAcme = .ok [patientOfRow "/b" acmeRow] ∧
    specFilterCS "acme" acmeRow = false := by
  constructor
  · rfl
  · rfl

/-- C8 amended: the listing returns, without error, exactly the stored
patients matching the trimmed filter under the SQLite LIKE operator
(ASCII-case-insensitive, with the pattern wrapped in percent wildcards)
on name, document number, insurer or emergency contact, ordered by
`updated_at` descending under binary collation (ties in unspecified
order); an empty or whitespace-only filter returns every patient in that
same order. -/
theorem list_patients_like_filter_ordered (base query : String) (db : DB) :
    ∃ rows : List PRow,
      list_patients base query db = .ok (rows.map (patientOfRow base)) ∧
      rows.Perm (if strTrim query = "" then db.patients
        else db.patients.filter (matchesFilter (strTrim query))) ∧
      rows.Pairwise (fun a b => strLeB b.updated_at.data a.updated_at.data = true) := by
  refine ⟨orderByUpdatedDesc (if strTrim query = "" then db.patients
    else db.patients.filter (matchesFilter (strTrim query))), ?_, ?_, ?_⟩
  · unfold list_patients
    by_cases hq : strTrim query = ""
    · rw [hq]
      exact mapM_row15 base _
    · show List.mapM (fun r => row_to_patient base (select15 r))
        (if strTrim query = "" then orderByUpdatedDesc db.patients
         else orderByUpdatedDesc (List.filter (matchesFilter (strTrim query)) db.patients)) = _
      rw [if_neg hq, if_neg hq]
      exact mapM_row15 base _
  · exact List.perm_insertionSort _ _
  · haveI : IsTotal PRow (fun a b => strLeB b.updated_at.data a.updated_at.data = true) :=
      ⟨fun _ _ => strLeB_total _ _⟩
    haveI : IsTrans PRow (fun a b => strLeB b.updated_at.data a.updated_at.data = true) :=
      ⟨fun _ _ _ hab hbc => strLeB_trans _ _ _ hbc hab⟩
    exact List.sorted_insertionSort _ _

/-- Writing back the value a column already has leaves the row unchanged. -/
theorem MRow.set_get_self (r : MRow) (c : Col) : r.set c (r.get c) = r := by
  cases c <;> rfl

/-- Filling timestamps does not touch the name column. -/
theorem fillTimestamps_get_name (now : String) (r : MRow) :
    (fillTimestamps now r).get .name = r.get .name := by
  unfold fillTimestamps
  split <;> rfl

/-- Filling timestamps does not touch the legacy full name column. -/
theorem fillTimestamps_get_full_name (now : String) (r : MRow) :
    (fillTimestamps now r).get .full_name = r.get .full_name := by
  unfold fillTimestamps
  split <;> rfl

/-- The name backfill does not touch the legacy full name column. -/
theorem backfillName_get_full_name (r : MRow) :
    (backfillName r).get .full_name = r.get .full_name := by
  unfold backfillName
  split <;> rfl

/-- Value of the name column after the backfill. -/
theorem backfillName_get_name (r : MRow) :
    (backfillName r).get .name =
      (if sqlBlank (r.get .name) then
        sqlCoalesce (sqlNullif (r.get .name) "") (r.get .full_name)
       else r.get .name) := by
  unfold backfillName
  split <;> rfl

/-- The backfilled name value is a fixed point of the backfill transform:
if it is still blank, applying the transform again returns it unchanged. -/
theorem backfill_value_fix (n fn : SqlVal)
    (hb : sqlBlank (if sqlBlank n then sqlCoalesce (sqlNullif n "") fn else n) = true) :
    sqlCoalesce (sqlNullif (if sqlBlank n then sqlCoalesce (sqlNullif n "") fn else n) "") fn
      = (if sqlBlank n then sqlCoalesce (sqlNullif n "") fn else n) := by
  by_cases h : sqlBlank n = true
  · rw [if_pos h] at hb ⊢
    cases n with
    | null =>
      cases fn with
      | null => rfl
      | text t =>
        by_cases ht : t = ""
        · simp [sqlNullif, sqlCoalesce, ht]
        · simp [sqlNullif, sqlCoalesce, ht]
    | text s =>
      by_cases hs : s = ""
      · subst hs
        cases fn with
        | null => simp [sqlNullif, sqlCoalesce]
        | text t =>
          by_cases ht : t = ""
          · simp [sqlNullif, sqlCoalesce, ht]
          · simp [sqlNullif, sqlCoalesce, ht]
      · simp [sqlNullif, sqlCoalesce, hs]
  · rw [if_neg h] at hb
    exact absurd hb h

/-- Applying the backfill to an already backfilled (and then
timestamp-filled) row changes nothing. -/
theorem backfillName_idem_processed (now : String) (r : MRow) :
    backfillName (fillTimestamps now (backfillName r)) =
      fillTimestamps now (backfillName r) := by
  set r2 := fillTimestamps now (backfillName r) with hr2
  have hname : r2.get .name = (backfillName r).get .name := by
    rw [hr2, fillTimestamps_get_name]
  have hfull : r2.get .full_name = r.get .full_name := by
    rw [hr2, fillTimestamps_get_full_name, backfillName_get_full_name]
  by_cases hb : sqlBlank (r2.get .name) = true
  · have hval : sqlCoalesce (sqlNullif (r2.get .name) "") (r2.get .full_name) =
        r2.get .name := by
      rw [hname, hfull, backfillName_get_name]
      apply backfill_value_fix
      rw [hname, backfillName_get_name] at hb
      exact hb
    unfold backfillName
    rw [if_pos hb, hval, MRow.set_get_self]
  · unfold backfillName
    rw [if_neg hb]

/-- Stability of a filled timestamp value: once defaulted with a
non-empty clock value, refilling with any clock value returns it. -/
theorem fill_value_stable (now1 now2 : String) (h : now1 ≠ "") (x : SqlVal) :
    sqlCoalesce (sqlNullif (sqlCoalesce (sqlNullif x "") (.text now1)) "") (.text now2) =
      sqlCoalesce (sqlNullif x "") (.text now1) := by
  cases x with
  | null => simp [sqlNullif, sqlCoalesce, h]
  | text s =>
    by_cases hs : s = "" <;> simp [sqlNullif, sqlCoalesce, hs, h]

/-- Value of the created timestamp after the filling step. -/
theorem fillTimestamps_get_created (now : String) (r : MRow) :
    (fillTimestamps now r).get .created_at =
      (if (sqlBlank (r.get .created_at) || sqlBlank (r.get .updated_at)) = true then
        sqlCoalesce (sqlNullif (r.get .created_at) "") (.text now)
       else r.get .created_at) := by
  unfold fillTimestamps
  split <;> rfl

/-- Value of the updated timestamp after the filling step. -/
theorem fillTimestamps_get_updated (now : String) (r : MRow) :
    (fillTimestamps now r).get .updated_at =
      (if (sqlBlank (r.get .created_at) || sqlBlank (r.get .updated_at)) = true then
        sqlCoalesce (sqlNullif (r.get .updated_at) "") (.text now)
       else r.get .updated_at) := by
  unfold fillTimestamps
  split <;> rfl

/-- Filling timestamps twice equals filling them once, provided the
first clock value is non-empty (as the SQLite datetime always is). -/
theorem fillTimestamps_idem (now1 now2 : String) (h : now1 ≠ "") (r : MRow) :
    fillTimestamps now2 (fillTimestamps now1 r) = fillTimestamps now1 r := by
  set r1 := fillTimestamps now1 r with hr1
  by_cases hc : (sqlBlank (r1.get .created_at) || sqlBlank (r1.get .updated_at)) = true
  · by_cases hc0 : (sqlBlank (r.get .created_at) || sqlBlank (r.get .updated_at)) = true
    · have hcr : sqlCoalesce (sqlNullif (r1.get .created_at) "") (.text now2) =
          r1.get .created_at := by
        rw [hr1, fillTimestamps_get_created, if_pos hc0]
        exact fill_value_stable now1 now2 h _
      have hur : sqlCoalesce (sqlNullif (r1.get .updated_at) "") (.text now2) =
          r1.get .updated_at := by
        rw [hr1, fillTimestamps_get_updated, if_pos hc0]
        exact fill_value_stable now1 now2 h _
      unfold fillTimestamps
      rw [if_pos hc, hcr, hur, MRow.set_get_self, MRow.set_get_self]
    · exfalso
      have : r1 = r := by
        rw [hr1]
        unfold fillTimestamps
        rw [if_neg hc0]
      rw [this] at hc
      exact hc0 hc
  · unfold fillTimestamps
    rw [if_neg hc]

/-- Adding a column preserves the columns already present. -/
theorem add_column_mono (t : MTable) (c : Col) (d : SqlVal) (x : Col)
    (hx : x ∈ t.cols) : x ∈ (add_column_if_missing t c d).cols := by
  unfold add_column_if_missing
  split
  · exact hx
  · exact List.mem_append_left _ hx

/-- Adding a column makes it present. -/
theorem add_column_mem (t : MTable) (c : Col) (d : SqlVal) :
    c ∈ (add_column_if_missing t c d).cols := by
  unfold add_column_if_missing
  split
  · assumption
  · exact List.mem_append_right _ (List.mem_singleton.mpr rfl)

/-- Columns present before a fold of column additions stay present. -/
theorem foldl_add_column_mono (L : List (Col × SqlVal)) :
    ∀ (t : MTable) (x : Col), x ∈ t.cols →
    x ∈ (L.foldl (fun t cd => add_column_if_missing t cd.1 cd.2) t).cols := by
  induction L with
  | nil => intro t x hx; exact hx
  | cons cd rest ih =>
    intro t x hx
    exact ih _ x (add_column_mono t ((cd : Col × SqlVal)).1 ((cd : Col × SqlVal)).2 x hx)

/-- Every column of the addition list is present after the fold. -/
theorem foldl_add_column_mem (L : List (Col × SqlVal)) :
    ∀ (t : MTable) (cd : Col × SqlVal), cd ∈ L →
    cd.1 ∈ (L.foldl (fun t cd => add_column_if_missing t cd.1 cd.2) t).cols := by
  induction L with
  | nil => intro t cd hcd; exact absurd hcd (List.not_mem_nil cd)
  | cons cd0 rest ih =>
    intro t cd hcd
    rcases List.mem_cons.mp hcd with hceq | hcmem
    · subst hceq
      exact foldl_add_column_mono rest _ cd.1 (add_column_mem t cd.1 cd.2)
    · exact ih _ cd hcmem

/-- When every column of the addition list is already present, the fold
changes nothing. -/
theorem foldl_add_column_id (L : List (Col × SqlVal)) :
    ∀ (t : MTable), (∀ cd ∈ L, cd.1 ∈ t.cols) →
    L.foldl (fun t cd => add_column_if_missing t cd.1 cd.2) t = t := by
  induction L with
  | nil => intro t _; rfl
  | cons cd0 rest ih =>
    intro t hall
    have h0 : add_column_if_missing t cd0.1 cd0.2 = t := by
      unfold add_column_if_missing
      rw [if_pos (hall cd0 (List.mem_cons_self cd0 rest))]
    rw [List.foldl_cons, h0]
    exact ih t (fun cd hcd => hall cd (List.mem_cons_of_mem cd0 hcd))

/-- The backfill step does not change the column list. -/
theorem migrate_backfill_cols (t : MTable) : (migrate_backfill t).cols = t.cols := by
  unfold migrate_backfill
  split <;> rfl

/-- The timestamp step does not change the column list. -/
theorem migrate_fill_cols (now : String) (t : MTable) :
    (migrate_fill now t).cols = t.cols := rfl

/-- The backfill step is idempotent after a timestamp fill. -/
theorem migrate_backfill_idem (now : String) (t : MTable) :
    migrate_backfill (migrate_fill now (migrate_backfill t)) =
      migrate_fill now (migrate_backfill t) := by
  by_cases hc : Col.full_name ∈ t.cols ∧ Col.name ∈ t.cols
  · have hinner : migrate_backfill t = { t with rows := t.rows.map backfillName } := by
      unfold migrate_backfill
      rw [if_pos hc]
    rw [hinner]
    show migrate_backfill
      { t with rows := (t.rows.map backfillName).map (fillTimestamps now) } = _
    unfold migrate_backfill
    rw [if_pos hc]
    show ({ t with rows :=
      ((t.rows.map backfillName).map (fillTimestamps now)).map backfillName } : MTable) = _
    congr 1
    simp only [List.map_map]
    apply List.map_congr_left
    intro r _
    simp only [Function.comp_apply]
    exact backfillName_idem_processed now r
  · have hinner : migrate_backfill t = t := by
      unfold migrate_backfill
      rw [if_neg hc]
    rw [hinner]
    unfold migrate_backfill migrate_fill
    rw [if_neg hc]

/-- The timestamp step is idempotent for a non-empty first clock value. -/
theorem migrate_fill_idem (now1 now2 : String) (h : now1 ≠ "") (t : MTable) :
    migrate_fill now2 (migrate_fill now1 t) = migrate_fill now1 t := by
  unfold migrate_fill
  congr 1
  simp only [List.map_map]
  apply List.map_congr_left
  intro r _
  simp only [Function.comp_apply]
  exact fillTimestamps_idem now1 now2 h r

/-- C4: running `ensure_schema` twice in a row yields exactly the same
database as running it once — the table creations, column additions,
`full_name` backfill and timestamp defaulting all have no effect beyond
their first application — provided the clock value of the first run is
non-empty, as the SQLite datetime always is. -/
theorem ensure_schema_idempotent (now1 now2 : String) (db : MDb) (h : now1 ≠ "") :
    ensure_schema now2 (ensure_schema now1 db) = ensure_schema now1 db := by
  unfold ensure_schema
  simp only [Option.getD_some]
  have hmc : migrate_columns (migrate_fill now1 (migrate_backfill (migrate_columns
      (db.patients.getD { cols := baseCols, rows := [] })))) =
      migrate_fill now1 (migrate_backfill (migrate_columns
      (db.patients.getD { cols := baseCols, rows := [] }))) := by
    unfold migrate_columns
    apply foldl_add_column_id
    intro cd hcd
    rw [migrate_fill_cols, migrate_backfill_cols]
    exact foldl_add_column_mem requiredCols _ cd hcd
  rw [hmc, migrate_backfill_idem now1, migrate_fill_idem now1 now2 h]

/-- Witness for C4 at a concrete legacy database (a `full_name` column,
a blank name, blank and missing timestamps, no `files` table). -/
theorem ensure_schema_idempotent_witness :
    ensure_schema "T2" (ensure_schema "T1" dbLegacy) = ensure_schema "T1" dbLegacy :=
  ensure_schema_idempotent "T1" "T2" dbLegacy (by decide)
